import Mathlib

/-!
Verification of the EBM internal core
(`src/python/interpret-core/interpret/glassbox/ebm/internal.py`).

The development shallowly embeds the Python module: the native boosting
engine is an oracle (`EngineOracle`, `InteractionOracle`) giving the result
of each C call, engine-call counts are threaded explicitly
(`EngineTrace`, `InteractionTrace`), Python floats arising in the boosting
loop are `PyF` (either `np.inf` or a finite value modelled as a rational),
and Python exceptions are `Except PyError`.
-/

/-- Python float values arising in the boosting loop of
`NativeHelper.cyclic_gradient_boost`: `np.inf` or a finite value, the
latter modelled as a rational. -/
inductive PyF where
  | inf : PyF
  | val : ℚ → PyF
deriving DecidableEq, Repr

/-- Python `min` on such values (`min(curr_metric, min_metric)`,
internal.py line 878). -/
def PyF.min : PyF → PyF → PyF
  | inf, b => b
  | val a, inf => val a
  | val a, val b => val (Min.min a b)

/-- The comparison `a + t < b` on Python floats, as used by
`min_metric + early_stopping_tolerance < bp_metric` (internal.py line 886). -/
def PyF.addLt : PyF → ℚ → PyF → Prop
  | inf, _, _ => False
  | val _, _, inf => True
  | val a, t, val b => a + t < b

instance : ∀ (a : PyF) (t : ℚ) (b : PyF), Decidable (PyF.addLt a t b)
  | .inf, _, _ => isFalse (fun h => h)
  | .val _, _, .inf => isTrue trivial
  | .val a, t, .val b => inferInstanceAs (Decidable (a + t < b))

/-- The mutable state of the episode loop in
`NativeHelper.cyclic_gradient_boost` (internal.py lines 844, 861-862):
`min_metric`, `bp_metric` and `no_change_run_length`. -/
structure LoopState where
  min_metric : PyF
  bp_metric : PyF
  no_change_run_length : Nat
deriving DecidableEq, Repr

/-- The loop state on entry to the episode loop: `min_metric = np.inf`,
`bp_metric = np.inf`, `no_change_run_length = 0`. -/
def initLoopState : LoopState := ⟨.inf, .inf, 0⟩

/-- The early-stopping bookkeeping at the end of one episode, given the
value of `min_metric` after this episode's feature-combination loop
(internal.py lines 885-890): re-anchor `bp_metric` when the stall counter
is zero, then reset or bump the stall counter. -/
def stallUpdate (tol : ℚ) (st : LoopState) (mm : PyF) : LoopState :=
  let bp := if st.no_change_run_length = 0 then mm else st.bp_metric
  ⟨mm, bp, if PyF.addLt mm tol bp then 0 else st.no_change_run_length + 1⟩

/-- One episode of the boosting loop on the abstract level where each
feature combination's `training_step` call yields a given `curr_metric`
value: fold `min_metric = min(curr_metric, min_metric)` over the round's
metrics (internal.py lines 870-878), then do the early-stopping update. -/
def boostRoundState (tol : ℚ) (st : LoopState) (roundMetrics : List ℚ) : LoopState :=
  stallUpdate tol st (roundMetrics.foldl (fun m c => PyF.min (.val c) m) st.min_metric)

/-- The break condition of the boosting loop (internal.py lines 892-896):
`early_stopping_run_length >= 0 and no_change_run_length >= early_stopping_run_length`. -/
def breakCond (runLen : Int) (stall : Nat) : Prop :=
  0 ≤ runLen ∧ runLen ≤ (stall : Int)

instance (runLen : Int) (stall : Nat) : Decidable (breakCond runLen stall) :=
  inferInstanceAs (Decidable (_ ∧ _))

/-- The episode loop of `cyclic_gradient_boost` over a list of rounds, each
round given by the list of `curr_metric` values its feature-combination
loop produces.  Returns the final state, the Python `episode_index`
variable at loop exit, and whether the loop exited via `break`. -/
def boostRounds (tol : ℚ) (runLen : Int) :
    LoopState → Nat → List (List ℚ) → LoopState × Nat × Bool
  | st, i, [] => (st, i, false)
  | st, i, m :: rest =>
    let st' := boostRoundState tol st m
    if breakCond runLen st'.no_change_run_length then (st', i, true)
    else boostRounds tol runLen st' (i + 1) rest

/-- Outcome of the boosting loop: final state, the Python `episode_index`
after the loop (`0` when no round ran, the index of the breaking round on
`break`, and `data_n_episodes - 1` otherwise), the number of round bodies
that executed, and whether the loop exited via `break`. -/
structure BoostOutcome where
  state : LoopState
  episode_index : Nat
  rounds_run : Nat
  broke : Bool
deriving DecidableEq, Repr

/-- The boosting loop of `cyclic_gradient_boost` (internal.py lines
861-896) on the abstract metric level, starting from the initial state. -/
def boostLoop (tol : ℚ) (runLen : Int) (rounds : List (List ℚ)) : BoostOutcome :=
  let r := boostRounds tol runLen initLoopState 0 rounds
  ⟨r.1, if r.2.2 then r.2.1 else rounds.length - 1,
    if r.2.2 then r.2.1 + 1 else rounds.length, r.2.2⟩

/-- The per-round states of the boosting loop run with early stopping
ignored (the state update of internal.py lines 870-890 does not depend on
`early_stopping_run_length`, which only controls the `break`). -/
def loopStates (tol : ℚ) : LoopState → List (List ℚ) → List LoopState
  | _, [] => []
  | st, m :: rest =>
    let st' := boostRoundState tol st m
    st' :: loopStates tol st' rest

/-- The alternating stall pattern `0, 1, 0, 1, ...` produced past the first
round by a strictly improving metric sequence. -/
def altPat : Nat → List Nat
  | 0 => []
  | 1 => [0]
  | n + 2 => 0 :: 1 :: altPat n

/-- Python exceptions raised by internal.py: `MemoryError`,
`AttributeError` and bare `Exception`, each with its message.  In the
spec's taxonomy `memoryError` is the AllocationFailure kind,
`attributeError` the InvalidArgument kind and `exception` the
EngineFailure kind. -/
inductive PyError where
  | memoryError (msg : String)
  | attributeError (msg : String)
  | exception (msg : String)
deriving DecidableEq, Repr

def msgInitTrainClass : String := "Out of memory in InitializeTrainingClassification"

def msgInitTrainReg : String := "Out of memory in InitializeTrainingRegression"

def msgUnrecognizedModelType : String := "Unrecognized model_type"

def msgUnrecognizedFeatureType : String := "Unrecognized feature[\"type\"]"

def msgGenerateUpdate : String := "Out of memory in GenerateModelFeatureCombinationUpdate"

def msgApplyUpdate : String := "Out of memory in ApplyModelFeatureCombinationUpdate"

def msgGetBestModel : String := "Out of memory in GetBestModelFeatureCombination"

def msgGetCurrentModel : String := "Out of memory in GetCurrentModelFeatureCombination"

def msgInitInteractionClass : String := "Out of memory in InitializeInteractionClassification"

def msgInitInteractionReg : String := "Out of memory in InitializeInteractionRegression"

def msgGetInteractionScore : String := "Out of memory in GetInteractionScore"

/-- One feature dictionary, keys `type` / `has_missing` / `n_bins`
(internal.py docstrings and `Native.convert_features_to_c`). -/
structure EbmFeature where
  type : String
  has_missing : Bool
  n_bins : Int
deriving DecidableEq, Repr

/-- One feature-combination dictionary; its `attributes` key lists the
member feature indices (internal.py lines 408, 608). -/
structure EbmFeatureCombination where
  attributes : List Nat
deriving DecidableEq, Repr

/-- Behaviour of the native training engine, abstracted as the result of
each C call: the pointer returned by `InitializeTraining*` and, indexed by
per-function call count, the pointer returned by each
`GenerateModelFeatureCombinationUpdate`, the status code and written
metric of each `ApplyModelFeatureCombinationUpdate`, and the pointer
returned by each `GetBestModelFeatureCombination` /
`GetCurrentModelFeatureCombination`.  A pointer value `0` is NULL. -/
structure EngineOracle where
  initTrainingPtr : Nat
  generatePtr : Nat → Nat
  applyCode : Nat → Int
  applyMetric : Nat → ℚ
  bestPtr : Nat → Nat
  currentPtr : Nat → Nat

/-- Counts of engine calls made so far by a training session:
`GenerateModelFeatureCombinationUpdate`, `ApplyModelFeatureCombinationUpdate`,
`GetBestModelFeatureCombination` + `GetCurrentModelFeatureCombination`
(together), and `FreeTraining`. -/
structure EngineTrace where
  generate_calls : Nat
  apply_calls : Nat
  model_calls : Nat
  free_calls : Nat
deriving DecidableEq, Repr

/-- No engine calls made yet. -/
def EngineTrace.initial : EngineTrace := ⟨0, 0, 0, 0⟩

/-- The state held by a constructed `NativeEBMTraining` object: the opaque
model pointer and the stored constructor arguments that later calls read
(internal.py lines 470-534).  The design matrices, targets, prior scores,
bag count and seed are forwarded to the engine only and never read back,
so they live behind `EngineOracle`. -/
structure NativeEBMTraining where
  model_pointer : Nat
  model_type : String
  n_classes : Int
  features : List EbmFeature
  feature_combinations : List EbmFeatureCombination
deriving DecidableEq, Repr

/-- The validation loop of `Native.convert_features_to_c` (internal.py
lines 383-397), run by both constructors before the model-type dispatch:
each feature's `type` must be `categorical` (mapped to Nominal) or
`continuous` (mapped to Ordinal); any other string raises
`AttributeError` with message `Unrecognized feature["type"]` at the first
offender.  The C array built on success is engine input only, so the
observable outcome here is raise-or-not. -/
def convert_features_to_c : List EbmFeature → Except PyError Unit
  | [] => .ok ()
  | f :: rest =>
    if f.type = "categorical" then convert_features_to_c rest
    else if f.type = "continuous" then convert_features_to_c rest
    else .error (.attributeError msgUnrecognizedFeatureType)

/-- `NativeEBMTraining.__init__` (internal.py lines 492-534): convert the
features (raising `AttributeError` on an unrecognized feature type,
internal.py line 477), then dispatch on `model_type`, raising
`MemoryError` on a NULL engine handle and `AttributeError` on an
unrecognized model type. -/
def NativeEBMTraining.mk_init (o : EngineOracle) (model_type : String) (n_classes : Int)
    (features : List EbmFeature) (feature_combinations : List EbmFeatureCombination) :
    Except PyError NativeEBMTraining :=
  match convert_features_to_c features with
  | .error e => .error e
  | .ok _ =>
  if model_type = "classification" then
    if o.initTrainingPtr = 0 then .error (.memoryError msgInitTrainClass)
    else .ok ⟨o.initTrainingPtr, model_type, n_classes, features, feature_combinations⟩
  else if model_type = "regression" then
    if o.initTrainingPtr = 0 then .error (.memoryError msgInitTrainReg)
    else .ok ⟨o.initTrainingPtr, model_type, n_classes, features, feature_combinations⟩
  else .error (.attributeError msgUnrecognizedModelType)

/-- `NativeEBMTraining.close` (internal.py lines 538-542): one
`FreeTraining` engine call. -/
def NativeEBMTraining.close (tr : EngineTrace) : EngineTrace :=
  { tr with free_calls := tr.free_calls + 1 }

/-- The `for i in range(training_step_episodes)` body of
`NativeEBMTraining.training_step` (internal.py lines 572-599): each
iteration makes one `GenerateModelFeatureCombinationUpdate` call (raising
`MemoryError` on a NULL tensor pointer) and one
`ApplyModelFeatureCombinationUpdate` call (raising on a nonzero status),
overwriting `metric_output` with the newly written metric. -/
def trainingStepLoop (o : EngineOracle) (tr : EngineTrace) (metric : ℚ) :
    Nat → EngineTrace × Except PyError ℚ
  | 0 => (tr, .ok metric)
  | k + 1 =>
    let genIdx := tr.generate_calls
    let tr1 : EngineTrace := { tr with generate_calls := tr.generate_calls + 1 }
    if o.generatePtr genIdx = 0 then (tr1, .error (.memoryError msgGenerateUpdate))
    else
      let applyIdx := tr1.apply_calls
      let tr2 : EngineTrace := { tr1 with apply_calls := tr1.apply_calls + 1 }
      if o.applyCode applyIdx ≠ 0 then (tr2, .error (.exception msgApplyUpdate))
      else trainingStepLoop o tr2 (o.applyMetric applyIdx) k

/-- `NativeEBMTraining.training_step` (internal.py lines 544-602):
`metric_output` starts at `0.0`; the generate/apply loop runs only when
`self._model_type != "classification" or 2 <= self._n_classes`; the final
`metric_output.value` is returned.  The scalar configuration arguments
(`learning_rate`, `max_tree_splits`, `min_cases_for_split`) are forwarded
to the engine untouched and so live behind `EngineOracle`. -/
def NativeEBMTraining.training_step (o : EngineOracle) (s : NativeEBMTraining)
    (tr : EngineTrace) (feature_combination_index : Nat)
    (training_step_episodes : Nat) : EngineTrace × Except PyError ℚ :=
  if s.model_type ≠ "classification" ∨ 2 ≤ s.n_classes then
    trainingStepLoop o tr 0 training_step_episodes
  else (tr, .ok 0)

/-- `NativeEBMTraining._get_feature_combination_shape` (internal.py lines
604-619): the member features' bin counts, reversed, with `n_classes`
appended as a trailing axis for classification with more than two
classes. -/
def NativeEBMTraining._get_feature_combination_shape (s : NativeEBMTraining)
    (feature_combination_index : Nat) : List Int :=
  let fc := s.feature_combinations.getD feature_combination_index ⟨[]⟩
  let dimensions := fc.attributes.map fun fi => (s.features.getD fi ⟨"", false, 0⟩).n_bins
  let dimensions := dimensions.reverse
  if s.model_type = "classification" ∧ 2 < s.n_classes then dimensions ++ [s.n_classes]
  else dimensions

/-- A model tensor materialized by `Native.make_ndarray`; only its shape is
observable to this core, the cell values being opaque engine output. -/
structure ModelTensor where
  shape : List Int
deriving DecidableEq, Repr

/-- `NativeEBMTraining._get_best_model_feature_combination` (internal.py
lines 621-666): for classification with at most one class return `None`
without calling the engine; otherwise one `GetBestModelFeatureCombination`
call, `MemoryError` on NULL, else an ndarray of the computed shape. -/
def NativeEBMTraining._get_best_model_feature_combination (o : EngineOracle)
    (s : NativeEBMTraining) (tr : EngineTrace) (feature_combination_index : Nat) :
    EngineTrace × Except PyError (Option ModelTensor) :=
  if s.model_type = "classification" ∧ s.n_classes ≤ 1 then (tr, .ok none)
  else
    let callIdx := tr.model_calls
    let tr1 : EngineTrace := { tr with model_calls := tr.model_calls + 1 }
    if o.bestPtr callIdx = 0 then (tr1, .error (.memoryError msgGetBestModel))
    else (tr1, .ok (some ⟨s._get_feature_combination_shape feature_combination_index⟩))

/-- `NativeEBMTraining._get_current_model_feature_combination` (internal.py
lines 676-713), identical to the best-model accessor but calling
`GetCurrentModelFeatureCombination`. -/
def NativeEBMTraining._get_current_model_feature_combination (o : EngineOracle)
    (s : NativeEBMTraining) (tr : EngineTrace) (feature_combination_index : Nat) :
    EngineTrace × Except PyError (Option ModelTensor) :=
  if s.model_type = "classification" ∧ s.n_classes ≤ 1 then (tr, .ok none)
  else
    let callIdx := tr.model_calls
    let tr1 : EngineTrace := { tr with model_calls := tr.model_calls + 1 }
    if o.currentPtr callIdx = 0 then (tr1, .error (.memoryError msgGetCurrentModel))
    else (tr1, .ok (some ⟨s._get_feature_combination_shape feature_combination_index⟩))

/-- The `for index in range(len(self._feature_combinations))` loop of
`NativeEBMTraining.get_best_model` (internal.py lines 668-674),
accumulating into `model`. -/
def getBestModelAux (o : EngineOracle) (s : NativeEBMTraining) (tr : EngineTrace)
    (acc : List (Option ModelTensor)) (idx : Nat) :
    Nat → EngineTrace × Except PyError (List (Option ModelTensor))
  | 0 => (tr, .ok acc)
  | r + 1 =>
    match s._get_best_model_feature_combination o tr idx with
    | (tr1, .error e) => (tr1, .error e)
    | (tr1, .ok t) => getBestModelAux o s tr1 (acc ++ [t]) (idx + 1) r

/-- `NativeEBMTraining.get_best_model` (internal.py lines 668-674). -/
def NativeEBMTraining.get_best_model (o : EngineOracle) (s : NativeEBMTraining)
    (tr : EngineTrace) : EngineTrace × Except PyError (List (Option ModelTensor)) :=
  getBestModelAux o s tr [] 0 s.feature_combinations.length

/-- The loop of `NativeEBMTraining.get_current_model` (internal.py lines
715-721). -/
def getCurrentModelAux (o : EngineOracle) (s : NativeEBMTraining) (tr : EngineTrace)
    (acc : List (Option ModelTensor)) (idx : Nat) :
    Nat → EngineTrace × Except PyError (List (Option ModelTensor))
  | 0 => (tr, .ok acc)
  | r + 1 =>
    match s._get_current_model_feature_combination o tr idx with
    | (tr1, .error e) => (tr1, .error e)
    | (tr1, .ok t) => getCurrentModelAux o s tr1 (acc ++ [t]) (idx + 1) r

/-- `NativeEBMTraining.get_current_model` (internal.py lines 715-721). -/
def NativeEBMTraining.get_current_model (o : EngineOracle) (s : NativeEBMTraining)
    (tr : EngineTrace) : EngineTrace × Except PyError (List (Option ModelTensor)) :=
  getCurrentModelAux o s tr [] 0 s.feature_combinations.length

/-- The `for feature_combination_index in range(len(feature_combinations))`
loop inside one episode of `NativeHelper.cyclic_gradient_boost`
(internal.py lines 870-878): each step calls `training_step` and folds
`min_metric = min(curr_metric, min_metric)`. -/
def cyclicCombinationLoop (o : EngineOracle) (s : NativeEBMTraining)
    (training_step_episodes : Nat) (tr : EngineTrace) (min_metric : PyF)
    (idx : Nat) : Nat → EngineTrace × Except PyError PyF
  | 0 => (tr, .ok min_metric)
  | r + 1 =>
    match NativeEBMTraining.training_step o s tr idx training_step_episodes with
    | (tr1, .error e) => (tr1, .error e)
    | (tr1, .ok curr) =>
      cyclicCombinationLoop o s training_step_episodes tr1
        (PyF.min (.val curr) min_metric) (idx + 1) r

/-- The `for episode_index in range(data_n_episodes)` loop of
`NativeHelper.cyclic_gradient_boost` (internal.py lines 865-896), with the
engine calls explicit.  Returns the trace and, on success, the final loop
state, the `episode_index` at exit, and whether exit was via `break`. -/
def cyclicEpisodeLoop (o : EngineOracle) (s : NativeEBMTraining)
    (training_step_episodes : Nat) (tol : ℚ) (runLen : Int) (tr : EngineTrace)
    (st : LoopState) (i : Nat) :
    Nat → EngineTrace × Except PyError (LoopState × Nat × Bool)
  | 0 => (tr, .ok (st, i, false))
  | r + 1 =>
    match cyclicCombinationLoop o s training_step_episodes tr st.min_metric 0
        s.feature_combinations.length with
    | (tr1, .error e) => (tr1, .error e)
    | (tr1, .ok mm) =>
      let st' := stallUpdate tol st mm
      if breakCond runLen st'.no_change_run_length then (tr1, .ok (st', i, true))
      else cyclicEpisodeLoop o s training_step_episodes tol runLen tr1 st' (i + 1) r

/-- The value returned by `NativeHelper.cyclic_gradient_boost`:
`model_update, min_metric, episode_index`. -/
structure BoostResult where
  model_update : List (Option ModelTensor)
  min_metric : PyF
  episode_index : Nat
deriving DecidableEq, Repr

/-- `NativeHelper.cyclic_gradient_boost` (internal.py lines 819-901): build
the `NativeEBMTraining` session (a constructor failure propagates before
`with closing(...)` can register the session, so no `FreeTraining`
happens), run the episode loop, extract the best model, and - via
`closing` - call `close` exactly once on every exit path out of the `with`
body, normal or exceptional.  The data-set arguments and scalar engine
configuration are forwarded to the engine only and live behind
`EngineOracle`. -/
def NativeHelper.cyclic_gradient_boost (o : EngineOracle) (model_type : String)
    (n_classes : Int) (features : List EbmFeature)
    (feature_combinations : List EbmFeatureCombination)
    (training_step_episodes : Nat) (data_n_episodes : Nat)
    (early_stopping_tolerance : ℚ) (early_stopping_run_length : Int) :
    EngineTrace × Except PyError BoostResult :=
  match NativeEBMTraining.mk_init o model_type n_classes features feature_combinations with
  | .error e => (EngineTrace.initial, .error e)
  | .ok s =>
    match cyclicEpisodeLoop o s training_step_episodes early_stopping_tolerance
        early_stopping_run_length EngineTrace.initial initLoopState 0 data_n_episodes with
    | (tr, .error e) => (NativeEBMTraining.close tr, .error e)
    | (tr, .ok (st, i, brk)) =>
      match NativeEBMTraining.get_best_model o s tr with
      | (tr1, .error e) => (NativeEBMTraining.close tr1, .error e)
      | (tr1, .ok model_update) =>
        (NativeEBMTraining.close tr1,
          .ok ⟨model_update, st.min_metric, if brk then i else data_n_episodes - 1⟩)

/-- Behaviour of the native interaction engine: the pointer returned by
`InitializeInteraction*` and, keyed by the candidate combination, the
status code and written score of each `GetInteractionScore` call. -/
structure InteractionOracle where
  initInteractionPtr : Nat
  scoreCode : List Nat → Int
  scoreVal : List Nat → ℚ

/-- Counts of engine calls made so far by an interaction session:
`GetInteractionScore` and `FreeInteraction`. -/
structure InteractionTrace where
  score_calls : Nat
  free_calls : Nat
deriving DecidableEq, Repr

/-- No interaction engine calls made yet. -/
def InteractionTrace.initial : InteractionTrace := ⟨0, 0⟩

/-- The state held by a constructed `NativeEBMInteraction` object
(internal.py lines 726-794). -/
structure NativeEBMInteraction where
  interaction_pointer : Nat
deriving DecidableEq, Repr

/-- `NativeEBMInteraction.__init__` (internal.py lines 730-794): convert
the features (raising `AttributeError` on an unrecognized feature type,
internal.py line 762), then dispatch on `model_type`, with `MemoryError`
on a NULL handle and `AttributeError` on an unrecognized model type. -/
def NativeEBMInteraction.mk_init (o : InteractionOracle) (model_type : String)
    (features : List EbmFeature) : Except PyError NativeEBMInteraction :=
  match convert_features_to_c features with
  | .error e => .error e
  | .ok _ =>
  if model_type = "classification" then
    if o.initInteractionPtr = 0 then .error (.memoryError msgInitInteractionClass)
    else .ok ⟨o.initInteractionPtr⟩
  else if model_type = "regression" then
    if o.initInteractionPtr = 0 then .error (.memoryError msgInitInteractionReg)
    else .ok ⟨o.initInteractionPtr⟩
  else .error (.attributeError msgUnrecognizedModelType)

/-- `NativeEBMInteraction.close` (internal.py lines 796-800): one
`FreeInteraction` engine call. -/
def NativeEBMInteraction.close (tr : InteractionTrace) : InteractionTrace :=
  { tr with free_calls := tr.free_calls + 1 }

/-- `NativeEBMInteraction.get_interaction_score` (internal.py lines
802-816): one `GetInteractionScore` call, raising on a nonzero status. -/
def NativeEBMInteraction.get_interaction_score (o : InteractionOracle)
    (tr : InteractionTrace) (feature_index_tuple : List Nat) :
    InteractionTrace × Except PyError ℚ :=
  let tr1 : InteractionTrace := { tr with score_calls := tr.score_calls + 1 }
  if o.scoreCode feature_index_tuple ≠ 0 then
    (tr1, .error (.exception msgGetInteractionScore))
  else (tr1, .ok (o.scoreVal feature_index_tuple))

/-- The `for feature_combination in iter_feature_combinations` loop of
`NativeHelper.get_interactions` (internal.py lines 923-925), appending
`(feature_combination, score)` pairs in input order. -/
def scoreLoop (o : InteractionOracle) (tr : InteractionTrace)
    (acc : List (List Nat × ℚ)) :
    List (List Nat) → InteractionTrace × Except PyError (List (List Nat × ℚ))
  | [] => (tr, .ok acc)
  | fc :: rest =>
    match NativeEBMInteraction.get_interaction_score o tr fc with
    | (tr1, .error e) => (tr1, .error e)
    | (tr1, .ok sc) => scoreLoop o tr1 (acc ++ [(fc, sc)]) rest

/-- Insertion of one pair into a list already sorted descending by score:
the pair goes in front of the first strictly lower-scoring entry, hence
after every entry of equal score. -/
def insertDesc (p : List Nat × ℚ) : List (List Nat × ℚ) → List (List Nat × ℚ)
  | [] => [p]
  | q :: rest => if q.2 < p.2 then p :: q :: rest else q :: insertDesc p rest

/-- Python's `sorted(interaction_scores, key=lambda x: x[1], reverse=True)`
(internal.py lines 930-932): a stable sort, descending on the score
component, realized as stable insertion sort. -/
def sortedByScoreDesc (xs : List (List Nat × ℚ)) : List (List Nat × ℚ) :=
  xs.foldl (fun acc p => insertDesc p acc) []

/-- `NativeHelper.get_interactions` (internal.py lines 903-938): score
every candidate through a `with closing(...)` interaction session, then
sort stably by score descending, truncate to
`min(len(ranked_scores), n_interactions)` and split off the combinations
and the scores. -/
def NativeHelper.get_interactions (o : InteractionOracle) (n_interactions : Nat)
    (iter_feature_combinations : List (List Nat)) (model_type : String)
    (features : List EbmFeature) :
    InteractionTrace × Except PyError (List (List Nat) × List ℚ) :=
  match NativeEBMInteraction.mk_init o model_type features with
  | .error e => (InteractionTrace.initial, .error e)
  | .ok _ =>
    match scoreLoop o InteractionTrace.initial [] iter_feature_combinations with
    | (tr, .error e) => (NativeEBMInteraction.close tr, .error e)
    | (tr, .ok interaction_scores) =>
      let ranked_scores := sortedByScoreDesc interaction_scores
      let n := Nat.min ranked_scores.length n_interactions
      let final_ranked_scores := ranked_scores.take n
      (NativeEBMInteraction.close tr,
        .ok (final_ranked_scores.map (·.1), final_ranked_scores.map (·.2)))

/-- A feature table with bin counts 3 and 4, for the shape scenario. -/
def exampleFeatures : List EbmFeature :=
  [⟨"continuous", false, 3⟩, ⟨"continuous", false, 4⟩]

/-- A regression session over `exampleFeatures` with the main-effect
combinations `[[0], [1]]`. -/
def exampleRegressionTraining : NativeEBMTraining :=
  ⟨1, "regression", 0, exampleFeatures, [⟨[0]⟩, ⟨[1]⟩]⟩

/-- An engine whose calls all succeed. -/
def exampleOracle : EngineOracle :=
  ⟨1, fun _ => 1, fun _ => 0, fun _ => 5, fun _ => 1, fun _ => 1⟩

/-- A degenerate classification feature table and combination list: one
feature, one main-effect combination, one observed class. -/
def exampleDegenerateFeatures : List EbmFeature := [⟨"continuous", false, 3⟩]

/-- The combination list `[[0]]`. -/
def exampleSingleCombination : List EbmFeatureCombination := [⟨[0]⟩]

/-- An interaction engine scoring the five candidates `[0]`..`[4]` with
`0.9, 0.9, 0.5, 0.2, 0.1` and succeeding on every call. -/
def exampleInteractionOracle : InteractionOracle :=
  ⟨1, fun _ => 0,
    fun fc =>
      if fc = [0] then 9/10
      else if fc = [1] then 9/10
      else if fc = [2] then 1/2
      else if fc = [3] then 1/5
      else 1/10⟩

/-- Claim C2 counterexample: with tolerance 0.01, run length 2 and
per-round metrics 1.0, 0.995, 0.994, 0.994, the boosting loop stops after
round index 1, not after round index 3 as the claim states. -/
theorem claim_C2_counterexample :
    (boostLoop (1/100) 2 [[(1:ℚ)], [199/200], [497/500], [497/500]]).episode_index = 1 ∧
    (boostLoop (1/100) 2 [[(1:ℚ)], [199/200], [497/500], [497/500]]).episode_index ≠ 3 := by
  norm_num [boostLoop, boostRounds, boostRoundState, stallUpdate, PyF.min, PyF.addLt,
    breakCond, initLoopState, min_def]

/-- Claim C2, amended: with early_stopping_tolerance 0.01,
early_stopping_run_length 2 and the per-round metric sequence
1.0, 0.995, 0.994, 0.994, the boosting loop exits via break after round
index 1 (round 0 re-anchors the baseline to 1.0 and stalls, round 1 fails
to beat 1.0 by more than the tolerance, reaching two stalled rounds). -/
theorem claim_C2 :
    (boostLoop (1/100) 2 [[(1:ℚ)], [199/200], [497/500], [497/500]]).broke = true ∧
    (boostLoop (1/100) 2 [[(1:ℚ)], [199/200], [497/500], [497/500]]).episode_index = 1 ∧
    (boostLoop (1/100) 2 [[(1:ℚ)], [199/200], [497/500], [497/500]]).rounds_run = 2 := by
  norm_num [boostLoop, boostRounds, boostRoundState, stallUpdate, PyF.min, PyF.addLt,
    breakCond, initLoopState, min_def]

theorem boostRounds_broke_iff (tol : ℚ) (runLen : Int) :
    ∀ (rounds : List (List ℚ)) (st : LoopState) (i : Nat),
      ((boostRounds tol runLen st i rounds).2.2 = true ↔
        0 ≤ runLen ∧ ∃ s ∈ loopStates tol st rounds,
          runLen ≤ (s.no_change_run_length : Int)) := by
  intro rounds
  induction rounds with
  | nil => intro st i; simp [boostRounds, loopStates]
  | cons m rest ih =>
    intro st i
    by_cases h : breakCond runLen (boostRoundState tol st m).no_change_run_length
    · simp only [boostRounds, if_pos h, loopStates]
      constructor
      · intro _
        exact ⟨h.1, boostRoundState tol st m, List.mem_cons_self _ _, h.2⟩
      · intro _; trivial
    · simp only [boostRounds, if_neg h, loopStates]
      rw [ih]
      constructor
      · rintro ⟨h0, s, hs, hle⟩
        exact ⟨h0, s, List.mem_cons_of_mem _ hs, hle⟩
      · rintro ⟨h0, s, hs, hle⟩
        rcases List.mem_cons.mp hs with rfl | hs'
        · exact absurd ⟨h0, hle⟩ h
        · exact ⟨h0, s, hs', hle⟩

theorem boostRounds_neverBreak (tol : ℚ) (runLen : Int) (h : runLen < 0) :
    ∀ (rounds : List (List ℚ)) (st : LoopState) (i : Nat),
      (boostRounds tol runLen st i rounds).2.2 = false ∧
        (boostRounds tol runLen st i rounds).2.1 = i + rounds.length := by
  intro rounds
  induction rounds with
  | nil => intro st i; simp [boostRounds]
  | cons m rest ih =>
    intro st i
    have hnb : ¬breakCond runLen (boostRoundState tol st m).no_change_run_length := by
      intro hc; exact absurd hc.1 (not_le.mpr h)
    simp only [boostRounds, if_neg hnb]
    refine ⟨(ih _ _).1, ?_⟩
    rw [(ih _ (i + 1)).2]
    simp [List.length_cons]; omega

/-- Claim C4: the boosting loop exits via break exactly when
early_stopping_run_length is nonnegative and the stall counter reaches it
at the end of some round, and with a negative early_stopping_run_length
the loop always runs all data_n_episodes rounds. -/
theorem claim_C4 (tol : ℚ) (runLen : Int) (rounds : List (List ℚ)) :
    ((boostLoop tol runLen rounds).broke = true ↔
      0 ≤ runLen ∧ ∃ s ∈ loopStates tol initLoopState rounds,
        runLen ≤ (s.no_change_run_length : Int)) ∧
    (runLen < 0 → (boostLoop tol runLen rounds).broke = false ∧
      (boostLoop tol runLen rounds).rounds_run = rounds.length) := by
  constructor
  · show (boostRounds tol runLen initLoopState 0 rounds).2.2 = true ↔ _
    exact boostRounds_broke_iff tol runLen rounds initLoopState 0
  · intro h
    have h1 := boostRounds_neverBreak tol runLen h rounds initLoopState 0
    constructor
    · show (boostRounds tol runLen initLoopState 0 rounds).2.2 = false
      exact h1.1
    · show (if (boostRounds tol runLen initLoopState 0 rounds).2.2 then _ else rounds.length) = rounds.length
      rw [h1.1]
      simp

/-- Witness for claim C4 at a concrete input. -/
theorem claim_C4_witness :
    (boostLoop 1 (-1) [[(1:ℚ)]]).broke = false ∧ (boostLoop 1 (-1) [[(1:ℚ)]]).rounds_run = 1 := by
  have h := (claim_C4 1 (-1) [[(1:ℚ)]]).2 (by norm_num)
  exact ⟨h.1, by rw [h.2]; rfl⟩

theorem loopStates_stalled (tol : ℚ) (ht : 0 ≤ tol) :
    ∀ (vs : List ℚ) (m : ℚ),
      List.Chain' (fun a b => b + tol < a) (m :: vs) →
      (loopStates tol ⟨.val m, .val m, 1⟩ (vs.map fun v => [v])).map
        (·.no_change_run_length) = altPat vs.length
  | [], _, _ => by simp [loopStates, altPat]
  | [w], m, hch => by
    have hwm : w + tol < m := (List.chain'_cons.mp hch).1
    have hwm' : w < m := lt_of_le_of_lt (le_add_of_nonneg_right ht) hwm
    simp [loopStates, boostRoundState, stallUpdate, PyF.min, PyF.addLt, altPat,
      min_eq_left hwm'.le, hwm]
  | w :: u :: rest, m, hch => by
    have h1 := List.chain'_cons.mp hch
    have h2 := List.chain'_cons.mp h1.2
    have hwm : w < m := lt_of_le_of_lt (le_add_of_nonneg_right ht) h1.1
    have huw : u < w := lt_of_le_of_lt (le_add_of_nonneg_right ht) h2.1
    have hno : ¬(u + tol < u) := not_lt.mpr (le_add_of_nonneg_right ht)
    have hrec := loopStates_stalled tol ht rest u h2.2
    have hst1 : boostRoundState tol ⟨.val m, .val m, 1⟩ [w] = ⟨.val w, .val m, 0⟩ := by
      simp [boostRoundState, stallUpdate, PyF.min, PyF.addLt, min_eq_left hwm.le, h1.1]
    have hst2 : boostRoundState tol ⟨.val w, .val m, 0⟩ [u] = ⟨.val u, .val u, 1⟩ := by
      simp [boostRoundState, stallUpdate, PyF.min, PyF.addLt, min_eq_left huw.le, hno]
    simp only [List.map_cons, loopStates, hst1, hst2, List.length_cons]
    have hlen : rest.length + 1 + 1 = rest.length + 2 := by omega
    rw [hlen]
    simp only [altPat]
    simp [hrec]

theorem altPat_getD : ∀ (n r : Nat), r < n →
    (altPat n).getD r 0 = if r % 2 = 0 then 0 else 1
  | 0, r, h => absurd h (Nat.not_lt_zero r)
  | 1, 0, _ => by simp [altPat]
  | 1, _ + 1, h => absurd h (by omega)
  | _ + 2, 0, _ => by simp [altPat]
  | _ + 2, 1, _ => by simp [altPat]
  | n + 2, r + 2, h => by
    have hrec := altPat_getD n r (by omega)
    have hmod : (r + 2) % 2 = r % 2 := by omega
    simp only [altPat, List.getD_cons_succ]
    rw [hrec, hmod]

/-- Claim C3, amended: for a strictly decreasing per-round metric sequence
whose per-round improvements all exceed the (nonnegative) tolerance, the
stall counter alternates instead of staying 0: it equals 1 at the end of
every even-indexed round and 0 at the end of every odd-indexed round (in
particular it never reaches 2). -/
theorem claim_C3 (tol : ℚ) (vs : List ℚ) (ht : 0 ≤ tol)
    (hch : List.Chain' (fun a b => b + tol < a) vs) :
    ∀ r, r < vs.length →
      ((loopStates tol initLoopState (vs.map fun v => [v])).map
        (·.no_change_run_length)).getD r 0 = if r % 2 = 0 then 1 else 0 := by
  cases vs with
  | nil => intro r hr; exact absurd hr (by simp)
  | cons v rest =>
    intro r hr
    have hno : ¬(v + tol < v) := not_lt.mpr (le_add_of_nonneg_right ht)
    have hst1 : boostRoundState tol initLoopState [v] = ⟨.val v, .val v, 1⟩ := by
      simp [boostRoundState, stallUpdate, PyF.min, PyF.addLt, initLoopState, hno]
    have htail := loopStates_stalled tol ht rest v hch
    simp only [List.map_cons, loopStates, hst1]
    cases r with
    | zero => simp
    | succ r' =>
      rw [List.getD_cons_succ, htail,
        altPat_getD rest.length r' (by simp at hr; omega)]
      rcases Nat.mod_two_eq_zero_or_one r' with h2 | h2
      · have h3 : (r' + 1) % 2 = 1 := by omega
        simp [h2, h3]
      · have h3 : (r' + 1) % 2 = 0 := by omega
        simp [h2, h3]

/-- Claim C3 counterexample: metrics 10, 8 with tolerance 1 form a strictly
decreasing sequence whose improvement exceeds the tolerance, yet the stall
counter at the end of round 0 is 1, not 0. -/
theorem claim_C3_counterexample :
    (0:ℚ) ≤ 1 ∧ (8:ℚ) + 1 < 10 ∧
    ((loopStates 1 initLoopState [[(10:ℚ)], [8]]).map
      (·.no_change_run_length)).getD 0 0 = 1 ∧
    ¬((loopStates 1 initLoopState [[(10:ℚ)], [8]]).map
      (·.no_change_run_length)).getD 0 0 = 0 := by
  norm_num [loopStates, boostRoundState, stallUpdate, PyF.min, PyF.addLt,
    initLoopState, min_def]

/-- Witness for claim C3 at a concrete input. -/
theorem claim_C3_witness :
    ((loopStates 1 initLoopState ([(10:ℚ), 8, 6].map fun v => [v])).map
      (·.no_change_run_length)).getD 1 0 = 0 := by
  have h := claim_C3 1 [10, 8, 6] (by norm_num)
    (by simp [List.chain'_cons]; norm_num) 1 (by norm_num)
  simpa using h

theorem getD_reverse_map (attrs : List Nat) (f : Nat → Int) (k : Nat)
    (hk : k < attrs.length) :
    ((attrs.map f).reverse).getD k 0 = f (attrs.getD (attrs.length - 1 - k) 0) := by
  have h1 : k < (attrs.map f).length := by simpa using hk
  have h2 : attrs.length - 1 - k < attrs.length := by omega
  rw [List.getD_eq_getElem?_getD, List.getElem?_reverse h1, List.length_map,
    List.getElem?_map, List.getElem?_eq_getElem h2]
  simp [List.getD_eq_getElem?_getD, List.getElem?_eq_getElem h2]

/-- Claim C5: the model-tensor shape lists the combination's features' bin
counts in reverse feature order (so its rank is the combination size),
with one trailing axis of length n_classes appended exactly for
classification with more than two classes; and in the concrete regression
scenario with combinations [[0]], [[1]] over bin counts 3, 4 the shapes
are [3] and [4]. -/
theorem claim_C5 :
    (∀ (s : NativeEBMTraining) (idx : Nat),
      ((s._get_feature_combination_shape idx).length =
        (s.feature_combinations.getD idx ⟨[]⟩).attributes.length +
          (if s.model_type = "classification" ∧ 2 < s.n_classes then 1 else 0)) ∧
      (∀ k, k < (s.feature_combinations.getD idx ⟨[]⟩).attributes.length →
        (s._get_feature_combination_shape idx).getD k 0 =
          (s.features.getD
            ((s.feature_combinations.getD idx ⟨[]⟩).attributes.getD
              ((s.feature_combinations.getD idx ⟨[]⟩).attributes.length - 1 - k) 0)
            ⟨"", false, 0⟩).n_bins) ∧
      ((s.model_type = "classification" ∧ 2 < s.n_classes) →
        (s._get_feature_combination_shape idx).getD
          (s.feature_combinations.getD idx ⟨[]⟩).attributes.length 0 = s.n_classes)) ∧
    exampleRegressionTraining._get_feature_combination_shape 0 = [3] ∧
    exampleRegressionTraining._get_feature_combination_shape 1 = [4] := by
  refine ⟨fun s idx => ?_, rfl, rfl⟩
  simp only [NativeEBMTraining._get_feature_combination_shape]
  by_cases hmc : s.model_type = "classification" ∧ 2 < s.n_classes
  · simp only [if_pos hmc]
    refine ⟨by simp [hmc], fun k hk => ?_, fun _ => ?_⟩
    · rw [List.getD_append _ _ _ _ (by simpa using hk)]
      exact getD_reverse_map _ _ k hk
    · have hlen :
          (((s.feature_combinations.getD idx ⟨[]⟩).attributes.map fun fi =>
            (s.features.getD fi ⟨"", false, 0⟩).n_bins).reverse).length =
          (s.feature_combinations.getD idx ⟨[]⟩).attributes.length := by simp
      rw [← hlen]
      simp [List.getD_eq_getElem?_getD]
  · simp only [if_neg hmc]
    refine ⟨by simp [hmc], fun k hk => ?_, fun h => absurd h hmc⟩
    exact getD_reverse_map _ _ k hk

/-- Witness for claim C5 at a concrete input. -/
theorem claim_C5_witness :
    (exampleRegressionTraining._get_feature_combination_shape 1).getD 0 0 =
      (exampleRegressionTraining.features.getD
        ((exampleRegressionTraining.feature_combinations.getD 1 ⟨[]⟩).attributes.getD 0 0)
        ⟨"", false, 0⟩).n_bins := by
  have h := ((claim_C5.1 exampleRegressionTraining 1).2.1) 0 (by decide)
  simpa using h

theorem convert_features_to_c_eq (features : List EbmFeature) :
    convert_features_to_c features =
      if ∀ f ∈ features, f.type = "categorical" ∨ f.type = "continuous" then .ok ()
      else .error (.attributeError msgUnrecognizedFeatureType) := by
  induction features with
  | nil => simp [convert_features_to_c]
  | cons f rest ih =>
    simp only [convert_features_to_c, ih, List.forall_mem_cons]
    by_cases h1 : f.type = "categorical"
    · by_cases h3 : ∀ g ∈ rest, g.type = "categorical" ∨ g.type = "continuous"
      · simp [h1, h3]
      · simp [h1, h3]
    · by_cases h2 : f.type = "continuous"
      · by_cases h3 : ∀ g ∈ rest, g.type = "categorical" ∨ g.type = "continuous"
        · simp [h1, h2, h3]
        · simp [h1, h2, h3]
      · simp [h1, h2]

theorem getBestModelAux_degenerate (o : EngineOracle) (s : NativeEBMTraining)
    (h1 : s.model_type = "classification") (h2 : s.n_classes ≤ 1) :
    ∀ (n : Nat) (tr : EngineTrace) (acc : List (Option ModelTensor)) (idx : Nat),
      getBestModelAux o s tr acc idx n = (tr, .ok (acc ++ List.replicate n none)) := by
  intro n
  induction n with
  | zero => intro tr acc idx; simp [getBestModelAux]
  | succ k ih =>
    intro tr acc idx
    simp only [getBestModelAux, NativeEBMTraining._get_best_model_feature_combination,
      if_pos (And.intro h1 h2)]
    rw [ih]
    simp [List.replicate_succ]

theorem getCurrentModelAux_degenerate (o : EngineOracle) (s : NativeEBMTraining)
    (h1 : s.model_type = "classification") (h2 : s.n_classes ≤ 1) :
    ∀ (n : Nat) (tr : EngineTrace) (acc : List (Option ModelTensor)) (idx : Nat),
      getCurrentModelAux o s tr acc idx n = (tr, .ok (acc ++ List.replicate n none)) := by
  intro n
  induction n with
  | zero => intro tr acc idx; simp [getCurrentModelAux]
  | succ k ih =>
    intro tr acc idx
    simp only [getCurrentModelAux, NativeEBMTraining._get_current_model_feature_combination,
      if_pos (And.intro h1 h2)]
    rw [ih]
    simp [List.replicate_succ]

/-- Claim C6: for a classification session with at most one observed
class, get_best_model and get_current_model return the None marker for
every feature combination and leave the engine-call trace untouched. -/
theorem claim_C6 (o : EngineOracle) (s : NativeEBMTraining) (tr : EngineTrace)
    (h1 : s.model_type = "classification") (h2 : s.n_classes ≤ 1) :
    NativeEBMTraining.get_best_model o s tr =
      (tr, .ok (List.replicate s.feature_combinations.length none)) ∧
    NativeEBMTraining.get_current_model o s tr =
      (tr, .ok (List.replicate s.feature_combinations.length none)) := by
  constructor
  · rw [NativeEBMTraining.get_best_model, getBestModelAux_degenerate o s h1 h2]
    simp
  · rw [NativeEBMTraining.get_current_model, getCurrentModelAux_degenerate o s h1 h2]
    simp

/-- Witness for claim C6 at a concrete input. -/
theorem claim_C6_witness :
    NativeEBMTraining.get_best_model exampleOracle
      ⟨1, "classification", 1, exampleDegenerateFeatures, exampleSingleCombination⟩
      EngineTrace.initial = (EngineTrace.initial, .ok [none]) := by
  have h := claim_C6 exampleOracle
    ⟨1, "classification", 1, exampleDegenerateFeatures, exampleSingleCombination⟩
    EngineTrace.initial rfl (by norm_num)
  simpa [exampleSingleCombination] using h.1

theorem PyF.min_min (a b : PyF) : PyF.min a (PyF.min a b) = PyF.min a b := by
  cases a with
  | inf => simp [PyF.min]
  | val x =>
    cases b with
    | inf => simp [PyF.min]
    | val y =>
      simp only [PyF.min, PyF.val.injEq]
      rw [← min_assoc, min_self]

theorem training_step_trivial (o : EngineOracle) (s : NativeEBMTraining) (tse : Nat)
    (h : (s.model_type = "classification" ∧ s.n_classes ≤ 1) ∨ tse = 0) :
    ∀ (tr : EngineTrace) (idx : Nat),
      NativeEBMTraining.training_step o s tr idx tse = (tr, .ok 0) := by
  intro tr idx
  rcases h with ⟨h1, h2⟩ | rfl
  · have hng : ¬(s.model_type ≠ "classification" ∨ 2 ≤ s.n_classes) := by
      push_neg
      exact ⟨h1, by omega⟩
    simp [NativeEBMTraining.training_step, hng]
  · by_cases hc : s.model_type ≠ "classification" ∨ 2 ≤ s.n_classes
    · simp [NativeEBMTraining.training_step, hc, trainingStepLoop]
    · simp [NativeEBMTraining.training_step, hc]

theorem cyclicCombinationLoop_trivial (o : EngineOracle) (s : NativeEBMTraining)
    (tse : Nat) (h : (s.model_type = "classification" ∧ s.n_classes ≤ 1) ∨ tse = 0) :
    ∀ (n : Nat) (tr : EngineTrace) (m : PyF) (idx : Nat),
      cyclicCombinationLoop o s tse tr m idx n =
        (tr, .ok (if n = 0 then m else PyF.min (.val 0) m)) := by
  intro n
  induction n with
  | zero => intro tr m idx; simp [cyclicCombinationLoop]
  | succ k ih =>
    intro tr m idx
    simp only [cyclicCombinationLoop, training_step_trivial o s tse h tr idx]
    rw [ih]
    by_cases hk : k = 0
    · simp [hk]
    · simp [hk, PyF.min_min]

theorem cyclicEpisodeLoop_trivial (o : EngineOracle) (s : NativeEBMTraining)
    (tse : Nat) (tol : ℚ) (runLen : Int)
    (h : (s.model_type = "classification" ∧ s.n_classes ≤ 1) ∨ tse = 0) :
    ∀ (n : Nat) (tr : EngineTrace) (st : LoopState) (i : Nat),
      st.min_metric = PyF.val 0 → st.bp_metric = PyF.val 0 →
      ∃ st2 i2 b2,
        cyclicEpisodeLoop o s tse tol runLen tr st i n = (tr, .ok (st2, i2, b2)) ∧
          st2.min_metric = PyF.val 0 ∧ st2.bp_metric = PyF.val 0 := by
  intro n
  induction n with
  | zero => intro tr st i h1 h2; exact ⟨st, i, false, rfl, h1, h2⟩
  | succ k ih =>
    intro tr st i h1 h2
    have hcomb := cyclicCombinationLoop_trivial o s tse h
      s.feature_combinations.length tr st.min_metric 0
    have hmm : (if s.feature_combinations.length = 0 then st.min_metric
        else PyF.min (.val 0) st.min_metric) = PyF.val 0 := by
      rw [h1]
      split <;> simp [PyF.min]
    rw [hmm] at hcomb
    have h1' : (stallUpdate tol st (PyF.val 0)).min_metric = PyF.val 0 := rfl
    have h2' : (stallUpdate tol st (PyF.val 0)).bp_metric = PyF.val 0 := by
      simp [stallUpdate, h2]
    by_cases hbrk : breakCond runLen (stallUpdate tol st (PyF.val 0)).no_change_run_length
    · exact ⟨stallUpdate tol st (PyF.val 0), i, true,
        by simp only [cyclicEpisodeLoop, hcomb]; simp [hbrk], h1', h2'⟩
    · obtain ⟨st2, i2, b2, heq, p1, p2⟩ := ih tr (stallUpdate tol st (PyF.val 0)) (i + 1) h1' h2'
      exact ⟨st2, i2, b2, by simp only [cyclicEpisodeLoop, hcomb]; simp [hbrk, heq], p1, p2⟩

theorem cyclicEpisodeLoop_noCombos (o : EngineOracle) (s : NativeEBMTraining)
    (tse : Nat) (tol : ℚ) (runLen : Int) (hc : s.feature_combinations.length = 0) :
    ∀ (n : Nat) (tr : EngineTrace) (st : LoopState) (i : Nat),
      ∃ st2 i2 b2,
        cyclicEpisodeLoop o s tse tol runLen tr st i n = (tr, .ok (st2, i2, b2)) ∧
          st2.min_metric = st.min_metric := by
  intro n
  induction n with
  | zero => intro tr st i; exact ⟨st, i, false, rfl, rfl⟩
  | succ k ih =>
    intro tr st i
    have hcomb : cyclicCombinationLoop o s tse tr st.min_metric 0
        s.feature_combinations.length = (tr, .ok st.min_metric) := by
      rw [hc]
      simp [cyclicCombinationLoop]
    have h1' : (stallUpdate tol st st.min_metric).min_metric = st.min_metric := rfl
    by_cases hbrk : breakCond runLen (stallUpdate tol st st.min_metric).no_change_run_length
    · exact ⟨stallUpdate tol st st.min_metric, i, true,
        by simp only [cyclicEpisodeLoop, hcomb]; simp [hbrk], h1'⟩
    · obtain ⟨st2, i2, b2, heq, p1⟩ := ih tr (stallUpdate tol st st.min_metric) (i + 1)
      exact ⟨st2, i2, b2, by simp only [cyclicEpisodeLoop, hcomb]; simp [hbrk, heq],
        p1.trans h1'⟩

theorem cyclicEpisodeLoop_trivial_init (o : EngineOracle) (s : NativeEBMTraining)
    (tse : Nat) (tol : ℚ) (runLen : Int)
    (h : (s.model_type = "classification" ∧ s.n_classes ≤ 1) ∨ tse = 0)
    (hc : s.feature_combinations.length ≠ 0) :
    ∀ (e : Nat) (tr : EngineTrace) (i : Nat),
      ∃ st2 i2 b2,
        cyclicEpisodeLoop o s tse tol runLen tr initLoopState i (e + 1) =
          (tr, .ok (st2, i2, b2)) ∧ st2.min_metric = PyF.val 0 := by
  intro e tr i
  have hcomb := cyclicCombinationLoop_trivial o s tse h
    s.feature_combinations.length tr initLoopState.min_metric 0
  have hmm : (if s.feature_combinations.length = 0 then initLoopState.min_metric
      else PyF.min (.val 0) initLoopState.min_metric) = PyF.val 0 := by
    simp [hc, initLoopState, PyF.min]
  rw [hmm] at hcomb
  have h1' : (stallUpdate tol initLoopState (PyF.val 0)).min_metric = PyF.val 0 := rfl
  have h2' : (stallUpdate tol initLoopState (PyF.val 0)).bp_metric = PyF.val 0 := rfl
  by_cases hbrk : breakCond runLen
      (stallUpdate tol initLoopState (PyF.val 0)).no_change_run_length
  · exact ⟨stallUpdate tol initLoopState (PyF.val 0), i, true,
      by simp only [cyclicEpisodeLoop, hcomb]; simp [hbrk], h1'⟩
  · obtain ⟨st2, i2, b2, heq, p1, _⟩ :=
      cyclicEpisodeLoop_trivial o s tse tol runLen h e tr
        (stallUpdate tol initLoopState (PyF.val 0)) (i + 1) h1' h2'
    exact ⟨st2, i2, b2, by simp only [cyclicEpisodeLoop, hcomb]; simp [hbrk, heq], p1⟩

/-- Claim C1 counterexample: a classification run with one observed class,
one feature combination and one round returns min_metric 0.0, not
np.inf - training_step returns its initialized 0.0 metric and the loop
folds it into min_metric. -/
theorem claim_C1_counterexample :
    (NativeHelper.cyclic_gradient_boost exampleOracle "classification" 1
      exampleDegenerateFeatures exampleSingleCombination 1 1 0 (-1)).2 =
      .ok ⟨[none], PyF.val 0, 0⟩ ∧ PyF.val 0 ≠ PyF.inf := by
  constructor
  · norm_num [NativeHelper.cyclic_gradient_boost, NativeEBMTraining.mk_init,
      exampleOracle, cyclicEpisodeLoop, cyclicCombinationLoop,
      NativeEBMTraining.training_step, trainingStepLoop, stallUpdate, PyF.min,
      PyF.addLt, breakCond, NativeEBMTraining.get_best_model, getBestModelAux,
      NativeEBMTraining._get_best_model_feature_combination, NativeEBMTraining.close,
      EngineTrace.initial, initLoopState, exampleDegenerateFeatures,
      exampleSingleCombination, convert_features_to_c, min_def]
  · simp

/-- Claim C1, amended: for a classification run with at most one observed
class, over a feature table whose types pass the constructor's
`convert_features_to_c` validation, no training engine call is ever made
(the final trace records zero generate, apply and model-retrieval calls
and the one FreeTraining of close), every returned model entry is the
None marker, and the returned min_metric is 0.0 as soon as at least one
round and one feature combination exist; it stays np.inf only when the
round count or the combination list is empty. -/
theorem claim_C1 (o : EngineOracle) (n_classes : Int) (features : List EbmFeature)
    (fcs : List EbmFeatureCombination) (tse eps : Nat) (tol : ℚ) (runLen : Int)
    (hptr : o.initTrainingPtr ≠ 0) (hnc : n_classes ≤ 1)
    (hfeat : ∀ f ∈ features, f.type = "categorical" ∨ f.type = "continuous") :
    (NativeHelper.cyclic_gradient_boost o "classification" n_classes features fcs
      tse eps tol runLen).1 = ⟨0, 0, 0, 1⟩ ∧
    ∃ br : BoostResult,
      (NativeHelper.cyclic_gradient_boost o "classification" n_classes features fcs
        tse eps tol runLen).2 = .ok br ∧
      br.model_update = List.replicate fcs.length none ∧
      br.min_metric = (if eps = 0 ∨ fcs.length = 0 then PyF.inf else PyF.val 0) := by
  have hcv : convert_features_to_c features = .ok () := by
    rw [convert_features_to_c_eq, if_pos hfeat]
  have hinit : NativeEBMTraining.mk_init o "classification" n_classes features fcs =
      .ok ⟨o.initTrainingPtr, "classification", n_classes, features, fcs⟩ := by
    simp [NativeEBMTraining.mk_init, hcv, hptr]
  set s : NativeEBMTraining :=
    ⟨o.initTrainingPtr, "classification", n_classes, features, fcs⟩ with hs
  have hdeg1 : s.model_type = "classification" := rfl
  have hdeg2 : s.n_classes ≤ 1 := hnc
  have hbest : ∀ tr2 : EngineTrace, NativeEBMTraining.get_best_model o s tr2 =
      (tr2, .ok (List.replicate fcs.length none)) := by
    intro tr2
    rw [NativeEBMTraining.get_best_model, getBestModelAux_degenerate o s hdeg1 hdeg2]
    simp
  obtain ⟨st2, i2, b2, heq, hmin⟩ : ∃ st2 i2 b2,
      cyclicEpisodeLoop o s tse tol runLen EngineTrace.initial initLoopState 0 eps =
        (EngineTrace.initial, .ok (st2, i2, b2)) ∧
      st2.min_metric = (if eps = 0 ∨ fcs.length = 0 then PyF.inf else PyF.val 0) := by
    cases eps with
    | zero => exact ⟨initLoopState, 0, false, rfl, by simp [initLoopState]⟩
    | succ e =>
      by_cases hfcs : fcs.length = 0
      · obtain ⟨st2, i2, b2, heq, p⟩ := cyclicEpisodeLoop_noCombos o s tse tol runLen
          hfcs (e + 1) EngineTrace.initial initLoopState 0
        exact ⟨st2, i2, b2, heq, by simp [hfcs, p, initLoopState]⟩
      · obtain ⟨st2, i2, b2, heq, p⟩ := cyclicEpisodeLoop_trivial_init o s tse tol
          runLen (Or.inl ⟨hdeg1, hdeg2⟩) hfcs e EngineTrace.initial 0
        exact ⟨st2, i2, b2, heq, by simp [hfcs, p]⟩
  constructor
  · simp only [NativeHelper.cyclic_gradient_boost, hinit]
    rw [heq]
    simp [hbest, NativeEBMTraining.close, EngineTrace.initial]
  · refine ⟨⟨List.replicate fcs.length none, st2.min_metric,
      if b2 then i2 else eps - 1⟩, ?_, rfl, hmin⟩
    simp only [NativeHelper.cyclic_gradient_boost, hinit]
    rw [heq]
    simp [hbest]

/-- Witness for claim C1 at a concrete input. -/
theorem claim_C1_witness :
    ∃ br : BoostResult,
      (NativeHelper.cyclic_gradient_boost exampleOracle "classification" 0
        exampleDegenerateFeatures exampleSingleCombination 2 3 1 2).2 = .ok br ∧
      br.model_update = [none] ∧ br.min_metric = PyF.val 0 := by
  have h := claim_C1 exampleOracle 0 exampleDegenerateFeatures exampleSingleCombination
    2 3 1 2 (by norm_num [exampleOracle]) (by norm_num)
    (by simp [exampleDegenerateFeatures])
  obtain ⟨br, h1, h2, h3⟩ := h.2
  exact ⟨br, h1, by simpa [exampleSingleCombination] using h2,
    by simpa [exampleSingleCombination] using h3⟩

/-- Claim C10: with training_step_episodes = 0, training_step makes no
engine call (the trace is returned untouched) and returns the initialized
metric 0.0 for every feature combination index and every model type, and
the boosting loop then takes this 0.0 as its running minimum metric. -/
theorem claim_C10 :
    (∀ (o : EngineOracle) (s : NativeEBMTraining) (tr : EngineTrace) (idx : Nat),
      NativeEBMTraining.training_step o s tr idx 0 = (tr, .ok (0:ℚ))) ∧
    (∀ (o : EngineOracle) (s : NativeEBMTraining) (tol : ℚ) (runLen : Int)
        (tr : EngineTrace) (i e : Nat), s.feature_combinations.length ≠ 0 →
      ∃ st2 i2 b2,
        cyclicEpisodeLoop o s 0 tol runLen tr initLoopState i (e + 1) =
          (tr, .ok (st2, i2, b2)) ∧ st2.min_metric = PyF.val 0) := by
  constructor
  · intro o s tr idx
    exact training_step_trivial o s 0 (Or.inr rfl) tr idx
  · intro o s tol runLen tr i e hfc
    exact cyclicEpisodeLoop_trivial_init o s 0 tol runLen (Or.inr rfl) hfc e tr i

/-- Witness for claim C10 at a concrete input. -/
theorem claim_C10_witness :
    NativeEBMTraining.training_step exampleOracle exampleRegressionTraining
      EngineTrace.initial 0 0 = (EngineTrace.initial, .ok (0:ℚ)) ∧
    ∃ st2 i2 b2,
      cyclicEpisodeLoop exampleOracle exampleRegressionTraining 0 1 2
        EngineTrace.initial initLoopState 0 (2 + 1) =
        (EngineTrace.initial, .ok (st2, i2, b2)) ∧ st2.min_metric = PyF.val 0 :=
  ⟨claim_C10.1 exampleOracle exampleRegressionTraining EngineTrace.initial 0,
    claim_C10.2 exampleOracle exampleRegressionTraining 1 2 EngineTrace.initial 0 2
      (by simp [exampleRegressionTraining])⟩

theorem trainingStepLoop_free (o : EngineOracle) :
    ∀ (n : Nat) (tr : EngineTrace) (m : ℚ),
      (trainingStepLoop o tr m n).1.free_calls = tr.free_calls := by
  intro n
  induction n with
  | zero => intro tr m; rfl
  | succ k ih =>
    intro tr m
    simp only [trainingStepLoop]
    by_cases h1 : o.generatePtr tr.generate_calls = 0
    · simp [h1]
    · simp only [if_neg h1]
      by_cases h2 : o.applyCode tr.apply_calls ≠ 0
      · simp [h2]
      · simp [h2, ih]

theorem training_step_free (o : EngineOracle) (s : NativeEBMTraining) (tse : Nat)
    (tr : EngineTrace) (idx : Nat) :
    (NativeEBMTraining.training_step o s tr idx tse).1.free_calls = tr.free_calls := by
  rw [NativeEBMTraining.training_step]
  split
  · exact trainingStepLoop_free o tse tr 0
  · rfl

theorem cyclicCombinationLoop_free (o : EngineOracle) (s : NativeEBMTraining)
    (tse : Nat) :
    ∀ (n : Nat) (tr : EngineTrace) (m : PyF) (idx : Nat),
      (cyclicCombinationLoop o s tse tr m idx n).1.free_calls = tr.free_calls := by
  intro n
  induction n with
  | zero => intro tr m idx; rfl
  | succ k ih =>
    intro tr m idx
    rcases hstep : NativeEBMTraining.training_step o s tr idx tse with ⟨tr1, res⟩
    have hf : tr1.free_calls = tr.free_calls := by
      have h := training_step_free o s tse tr idx
      rw [hstep] at h
      exact h
    cases res with
    | error e => simp only [cyclicCombinationLoop, hstep]; exact hf
    | ok curr => simp only [cyclicCombinationLoop, hstep]; rw [ih]; exact hf

theorem cyclicEpisodeLoop_free (o : EngineOracle) (s : NativeEBMTraining)
    (tse : Nat) (tol : ℚ) (runLen : Int) :
    ∀ (n : Nat) (tr : EngineTrace) (st : LoopState) (i : Nat),
      (cyclicEpisodeLoop o s tse tol runLen tr st i n).1.free_calls = tr.free_calls := by
  intro n
  induction n with
  | zero => intro tr st i; rfl
  | succ k ih =>
    intro tr st i
    rcases hcomb : cyclicCombinationLoop o s tse tr st.min_metric 0
        s.feature_combinations.length with ⟨tr1, res⟩
    have hf : tr1.free_calls = tr.free_calls := by
      have h := cyclicCombinationLoop_free o s tse s.feature_combinations.length tr
        st.min_metric 0
      rw [hcomb] at h
      exact h
    cases res with
    | error e => simp only [cyclicEpisodeLoop, hcomb]; exact hf
    | ok mm =>
      simp only [cyclicEpisodeLoop, hcomb]
      by_cases hbrk : breakCond runLen (stallUpdate tol st mm).no_change_run_length
      · simp [hbrk, hf]
      · simp only [if_neg hbrk]
        rw [ih]
        exact hf

theorem getBestModelAux_free (o : EngineOracle) (s : NativeEBMTraining) :
    ∀ (n : Nat) (tr : EngineTrace) (acc : List (Option ModelTensor)) (idx : Nat),
      (getBestModelAux o s tr acc idx n).1.free_calls = tr.free_calls := by
  intro n
  induction n with
  | zero => intro tr acc idx; rfl
  | succ k ih =>
    intro tr acc idx
    simp only [getBestModelAux, NativeEBMTraining._get_best_model_feature_combination]
    by_cases hdeg : s.model_type = "classification" ∧ s.n_classes ≤ 1
    · simp only [if_pos hdeg]
      rw [ih]
    · simp only [if_neg hdeg]
      by_cases hp : o.bestPtr tr.model_calls = 0
      · simp [hp]
      · simp only [if_neg hp]
        rw [ih]

theorem get_best_model_free (o : EngineOracle) (s : NativeEBMTraining)
    (tr : EngineTrace) :
    (NativeEBMTraining.get_best_model o s tr).1.free_calls = tr.free_calls :=
  getBestModelAux_free o s s.feature_combinations.length tr [] 0

/-- Claim C8: after a successful construction (recognized feature types,
recognized model type, non-NULL handle) the FreeTraining release runs
exactly once on every exit path of cyclic_gradient_boost, whether the body
fails or completes; and when the first GenerateModelFeatureCombinationUpdate
call reports a NULL tensor in a non-degenerate run, the whole run aborts
immediately with that MemoryError - one generate call, no apply call, no
model retrieved, and the session still freed. -/
theorem claim_C8 :
    (∀ (o : EngineOracle) (mt : String) (nc : Int) (features : List EbmFeature)
        (fcs : List EbmFeatureCombination) (tse eps : Nat) (tol : ℚ) (runLen : Int),
      (mt = "classification" ∨ mt = "regression") → o.initTrainingPtr ≠ 0 →
      (∀ f ∈ features, f.type = "categorical" ∨ f.type = "continuous") →
      (NativeHelper.cyclic_gradient_boost o mt nc features fcs tse eps tol
        runLen).1.free_calls = 1) ∧
    (∀ (o : EngineOracle) (mt : String) (nc : Int) (features : List EbmFeature)
        (fc : EbmFeatureCombination) (fcs : List EbmFeatureCombination)
        (t e : Nat) (tol : ℚ) (runLen : Int),
      (mt ≠ "classification" ∨ 2 ≤ nc) → (mt = "classification" ∨ mt = "regression") →
      o.initTrainingPtr ≠ 0 →
      (∀ f ∈ features, f.type = "categorical" ∨ f.type = "continuous") →
      o.generatePtr 0 = 0 →
      NativeHelper.cyclic_gradient_boost o mt nc features (fc :: fcs) (t + 1) (e + 1)
        tol runLen = (⟨1, 0, 0, 1⟩, .error (.memoryError msgGenerateUpdate))) := by
  constructor
  · intro o mt nc features fcs tse eps tol runLen hmt hptr hfeat
    have hcv : convert_features_to_c features = .ok () := by
      rw [convert_features_to_c_eq, if_pos hfeat]
    have hinit : NativeEBMTraining.mk_init o mt nc features fcs =
        .ok ⟨o.initTrainingPtr, mt, nc, features, fcs⟩ := by
      rcases hmt with rfl | rfl <;> simp [NativeEBMTraining.mk_init, hcv, hptr]
    set s : NativeEBMTraining := ⟨o.initTrainingPtr, mt, nc, features, fcs⟩ with hs
    simp only [NativeHelper.cyclic_gradient_boost, hinit]
    rcases h1 : cyclicEpisodeLoop o s tse tol runLen EngineTrace.initial
        initLoopState 0 eps with ⟨tr1, res1⟩
    have hf1 : tr1.free_calls = 0 := by
      have h := cyclicEpisodeLoop_free o s tse tol runLen eps EngineTrace.initial
        initLoopState 0
      rw [h1] at h
      exact h
    cases res1 with
    | error e1 => simp [NativeEBMTraining.close, hf1]
    | ok v =>
      obtain ⟨st, i, brk⟩ := v
      dsimp only
      rcases h2 : NativeEBMTraining.get_best_model o s tr1 with ⟨tr2, res2⟩
      have hf2 : tr2.free_calls = 0 := by
        have h := get_best_model_free o s tr1
        rw [h2] at h
        rw [h]
        exact hf1
      cases res2 with
      | error e2 => simp [NativeEBMTraining.close, hf2]
      | ok model => simp [NativeEBMTraining.close, hf2]
  · intro o mt nc features fc fcs t e tol runLen hcls hmt hptr hfeat hgen
    have hcv : convert_features_to_c features = .ok () := by
      rw [convert_features_to_c_eq, if_pos hfeat]
    have hinit : NativeEBMTraining.mk_init o mt nc features (fc :: fcs) =
        .ok ⟨o.initTrainingPtr, mt, nc, features, fc :: fcs⟩ := by
      rcases hmt with rfl | rfl <;> simp [NativeEBMTraining.mk_init, hcv, hptr]
    set s : NativeEBMTraining := ⟨o.initTrainingPtr, mt, nc, features, fc :: fcs⟩ with hs
    have hstep : NativeEBMTraining.training_step o s EngineTrace.initial 0 (t + 1) =
        (⟨1, 0, 0, 0⟩, .error (.memoryError msgGenerateUpdate)) := by
      have hcond : s.model_type ≠ "classification" ∨ 2 ≤ s.n_classes := hcls
      rw [NativeEBMTraining.training_step, if_pos hcond]
      simp [trainingStepLoop, EngineTrace.initial, hgen]
    have hcomb : cyclicCombinationLoop o s (t + 1) EngineTrace.initial
        initLoopState.min_metric 0 s.feature_combinations.length =
        (⟨1, 0, 0, 0⟩, .error (.memoryError msgGenerateUpdate)) := by
      have hlen : s.feature_combinations.length = fcs.length + 1 := by simp
      rw [hlen]
      simp only [cyclicCombinationLoop, hstep]
    have hep : cyclicEpisodeLoop o s (t + 1) tol runLen EngineTrace.initial
        initLoopState 0 (e + 1) =
        (⟨1, 0, 0, 0⟩, .error (.memoryError msgGenerateUpdate)) := by
      simp only [cyclicEpisodeLoop, hcomb]
    simp only [NativeHelper.cyclic_gradient_boost, hinit, hep]
    simp [NativeEBMTraining.close]

/-- Witness for claim C8 at a concrete input. -/
theorem claim_C8_witness :
    NativeHelper.cyclic_gradient_boost
      ⟨1, fun _ => 0, fun _ => 0, fun _ => 0, fun _ => 1, fun _ => 1⟩ "regression" 0 []
      [⟨[0]⟩] 1 1 1 2 = (⟨1, 0, 0, 1⟩, .error (.memoryError msgGenerateUpdate)) :=
  claim_C8.2 ⟨1, fun _ => 0, fun _ => 0, fun _ => 0, fun _ => 1, fun _ => 1⟩
    "regression" 0 [] ⟨[0]⟩ [] 0 0 1 2 (Or.inl (by simp)) (Or.inr rfl)
    (by norm_num) (by simp) rfl

/-- Claim C9 counterexample: with the recognized model type
`classification` (and a NULL engine handle available), a malformed
feature type makes the constructor raise the InvalidArgument-kind
AttributeError for the feature type, although the claim allows an
InvalidArgument-kind failure only for an unrecognized model type and
promises an AllocationFailure kind whenever the handle would be NULL. -/
theorem claim_C9_counterexample :
    NativeEBMTraining.mk_init ⟨0, fun _ => 1, fun _ => 0, fun _ => 0, fun _ => 1,
        fun _ => 1⟩ "classification" 1 [⟨"ordinal", false, 3⟩] [] =
      .error (.attributeError msgUnrecognizedFeatureType) ∧
    ("classification" = "classification" ∨ "classification" = "regression") := by
  constructor
  · simp [NativeEBMTraining.mk_init, convert_features_to_c]
  · exact Or.inl rfl

/-- Claim C9, amended: when every feature type passes the constructor's
validation, construction raises the AllocationFailure-kind MemoryError
exactly when the model type is a recognized tag and the engine returns a
NULL handle, and the InvalidArgument-kind AttributeError (message
`Unrecognized model_type`) exactly when the model type is neither tag; an
unrecognized feature type instead raises the InvalidArgument-kind
AttributeError with message `Unrecognized feature["type"]` first,
whatever the model type and handle; on success the stored handle is the
engine's non-NULL pointer.  Proved for both the training and the
interaction constructor. -/
theorem claim_C9 (o : EngineOracle) (oi : InteractionOracle) (mt : String) (nc : Int)
    (features : List EbmFeature) (fcs : List EbmFeatureCombination) :
    ((∃ msg, NativeEBMTraining.mk_init o mt nc features fcs =
        .error (.memoryError msg)) ↔
      (∀ f ∈ features, f.type = "categorical" ∨ f.type = "continuous") ∧
      (mt = "classification" ∨ mt = "regression") ∧ o.initTrainingPtr = 0) ∧
    (NativeEBMTraining.mk_init o mt nc features fcs =
        .error (.attributeError msgUnrecognizedFeatureType) ↔
      ¬(∀ f ∈ features, f.type = "categorical" ∨ f.type = "continuous")) ∧
    (NativeEBMTraining.mk_init o mt nc features fcs =
        .error (.attributeError msgUnrecognizedModelType) ↔
      (∀ f ∈ features, f.type = "categorical" ∨ f.type = "continuous") ∧
      ¬(mt = "classification" ∨ mt = "regression")) ∧
    (∀ s, NativeEBMTraining.mk_init o mt nc features fcs = .ok s →
      s.model_pointer = o.initTrainingPtr ∧ s.model_pointer ≠ 0) ∧
    ((∃ msg, NativeEBMInteraction.mk_init oi mt features =
        .error (.memoryError msg)) ↔
      (∀ f ∈ features, f.type = "categorical" ∨ f.type = "continuous") ∧
      (mt = "classification" ∨ mt = "regression") ∧ oi.initInteractionPtr = 0) ∧
    (NativeEBMInteraction.mk_init oi mt features =
        .error (.attributeError msgUnrecognizedFeatureType) ↔
      ¬(∀ f ∈ features, f.type = "categorical" ∨ f.type = "continuous")) ∧
    (NativeEBMInteraction.mk_init oi mt features =
        .error (.attributeError msgUnrecognizedModelType) ↔
      (∀ f ∈ features, f.type = "categorical" ∨ f.type = "continuous") ∧
      ¬(mt = "classification" ∨ mt = "regression")) ∧
    (∀ s, NativeEBMInteraction.mk_init oi mt features = .ok s →
      s.interaction_pointer = oi.initInteractionPtr ∧ s.interaction_pointer ≠ 0) := by
  by_cases hf : ∀ f ∈ features, f.type = "categorical" ∨ f.type = "continuous"
  · have hcv : convert_features_to_c features = .ok () := by
      rw [convert_features_to_c_eq, if_pos hf]
    have hfi : (∀ f ∈ features, f.type = "categorical" ∨ f.type = "continuous") ↔
        True := iff_true_intro hf
    by_cases hc : mt = "classification"
    · subst hc
      by_cases hp : o.initTrainingPtr = 0 <;> by_cases hpi : oi.initInteractionPtr = 0 <;>
        refine ⟨?_, ?_, ?_, ?_, ?_, ?_, ?_, ?_⟩ <;>
          simp [NativeEBMTraining.mk_init, NativeEBMInteraction.mk_init, hcv, hfi,
            hp, hpi, msgInitTrainClass, msgInitInteractionClass,
            msgUnrecognizedFeatureType, msgUnrecognizedModelType] <;>
          (intro s hs; simp [← hs, hp, hpi])
    · by_cases hr : mt = "regression"
      · subst hr
        by_cases hp : o.initTrainingPtr = 0 <;> by_cases hpi : oi.initInteractionPtr = 0 <;>
          refine ⟨?_, ?_, ?_, ?_, ?_, ?_, ?_, ?_⟩ <;>
            simp [NativeEBMTraining.mk_init, NativeEBMInteraction.mk_init, hcv, hfi,
              hc, hp, hpi, msgInitTrainReg, msgInitInteractionReg,
              msgUnrecognizedFeatureType, msgUnrecognizedModelType] <;>
            (intro s hs; simp [← hs, hp, hpi])
      · refine ⟨?_, ?_, ?_, ?_, ?_, ?_, ?_, ?_⟩ <;>
          simp [NativeEBMTraining.mk_init, NativeEBMInteraction.mk_init, hcv, hfi,
            hc, hr, msgUnrecognizedFeatureType, msgUnrecognizedModelType]
  · have hcv : convert_features_to_c features =
        .error (.attributeError msgUnrecognizedFeatureType) := by
      rw [convert_features_to_c_eq, if_neg hf]
    refine ⟨?_, ?_, ?_, ?_, ?_, ?_, ?_, ?_⟩ <;>
      simp [NativeEBMTraining.mk_init, NativeEBMInteraction.mk_init, hcv, hf,
        msgUnrecognizedFeatureType, msgUnrecognizedModelType]

/-- Witness for claim C9 at a concrete input. -/
theorem claim_C9_witness :
    NativeEBMTraining.mk_init exampleOracle "nearest_neighbors" 0 [] [] =
      .error (.attributeError msgUnrecognizedModelType) :=
  (claim_C9 exampleOracle exampleInteractionOracle
    "nearest_neighbors" 0 [] []).2.2.1.mpr ⟨by simp, by simp⟩

theorem insertDesc_perm (p : List Nat × ℚ) :
    ∀ l, List.Perm (insertDesc p l) (p :: l)
  | [] => List.Perm.refl _
  | q :: rest => by
    simp only [insertDesc]
    split
    · exact List.Perm.refl _
    · exact ((insertDesc_perm p rest).cons q).trans (List.Perm.swap p q rest)

theorem insertDesc_sorted (p : List Nat × ℚ) :
    ∀ l, l.Pairwise (fun x y : List Nat × ℚ => y.2 ≤ x.2) →
      (insertDesc p l).Pairwise (fun x y : List Nat × ℚ => y.2 ≤ x.2)
  | [], _ => by simp [insertDesc]
  | q :: rest, h => by
    rcases List.pairwise_cons.mp h with ⟨hq, hrest⟩
    simp only [insertDesc]
    split
    case isTrue hlt =>
      refine List.pairwise_cons.mpr ⟨?_, h⟩
      intro r hr
      rcases List.mem_cons.mp hr with rfl | hr'
      · exact le_of_lt hlt
      · exact le_trans (hq r hr') (le_of_lt hlt)
    case isFalse hge =>
      refine List.pairwise_cons.mpr ⟨?_, insertDesc_sorted p rest hrest⟩
      intro r hr
      have hr2 := (insertDesc_perm p rest).mem_iff.mp hr
      rcases List.mem_cons.mp hr2 with rfl | hr'
      · exact not_lt.mp hge
      · exact hq r hr'

theorem insertDesc_filter (p : List Nat × ℚ) (sc : ℚ) :
    ∀ l, l.Pairwise (fun x y : List Nat × ℚ => y.2 ≤ x.2) →
      (insertDesc p l).filter (fun x => x.2 = sc) =
        l.filter (fun x => x.2 = sc) ++ (if p.2 = sc then [p] else [])
  | [], _ => by by_cases hp : p.2 = sc <;> simp [insertDesc, hp]
  | q :: rest, h => by
    rcases List.pairwise_cons.mp h with ⟨hq, hrest⟩
    simp only [insertDesc]
    split
    case isTrue hlt =>
      by_cases hp : p.2 = sc
      · have hnil : (q :: rest).filter (fun x : List Nat × ℚ => x.2 = sc) = [] := by
          refine List.filter_eq_nil_iff.mpr ?_
          intro r hr
          have hrlt : r.2 < p.2 := by
            rcases List.mem_cons.mp hr with rfl | hr'
            · exact hlt
            · exact lt_of_le_of_lt (hq r hr') hlt
          simp only [decide_eq_true_eq]
          intro heq
          exact absurd (heq.trans hp.symm) (ne_of_lt hrlt)
        simp [hp, hnil]
      · simp [hp]
    case isFalse hge =>
      by_cases hq2 : q.2 = sc
      · simp [hq2, insertDesc_filter p sc rest hrest]
      · simp [hq2, insertDesc_filter p sc rest hrest]

theorem sortAux_sorted :
    ∀ (xs acc : List (List Nat × ℚ)),
      acc.Pairwise (fun x y : List Nat × ℚ => y.2 ≤ x.2) →
      (xs.foldl (fun a p => insertDesc p a) acc).Pairwise
        (fun x y : List Nat × ℚ => y.2 ≤ x.2)
  | [], _, h => h
  | x :: xs, acc, h => sortAux_sorted xs (insertDesc x acc) (insertDesc_sorted x acc h)

theorem sortAux_perm :
    ∀ (xs acc : List (List Nat × ℚ)),
      List.Perm (xs.foldl (fun a p => insertDesc p a) acc) (acc ++ xs)
  | [], acc => by simp
  | x :: xs, acc => by
    have h1 := sortAux_perm xs (insertDesc x acc)
    have h2 : List.Perm (insertDesc x acc ++ xs) ((x :: acc) ++ xs) :=
      (insertDesc_perm x acc).append_right xs
    have h3 : List.Perm ((x :: acc) ++ xs) (acc ++ x :: xs) := by
      simp only [List.cons_append]
      exact List.perm_middle.symm
    exact (h1.trans h2).trans h3

theorem sortAux_filter (sc : ℚ) :
    ∀ (xs acc : List (List Nat × ℚ)),
      acc.Pairwise (fun x y : List Nat × ℚ => y.2 ≤ x.2) →
      (xs.foldl (fun a p => insertDesc p a) acc).filter (fun x => x.2 = sc) =
        acc.filter (fun x => x.2 = sc) ++ xs.filter (fun x => x.2 = sc)
  | [], _, _ => by simp
  | x :: xs, acc, h => by
    have h1 := sortAux_filter sc xs (insertDesc x acc) (insertDesc_sorted x acc h)
    show (List.foldl _ (insertDesc x acc) xs).filter _ = _
    rw [h1, insertDesc_filter x sc acc h]
    by_cases hx : x.2 = sc
    · simp [hx]
    · simp [hx]

theorem scoreLoop_ok (o : InteractionOracle) :
    ∀ (cands : List (List Nat)), (∀ fc ∈ cands, o.scoreCode fc = 0) →
      ∀ (tr : InteractionTrace) (acc : List (List Nat × ℚ)),
        scoreLoop o tr acc cands =
          (⟨tr.score_calls + cands.length, tr.free_calls⟩,
            .ok (acc ++ cands.map fun fc => (fc, o.scoreVal fc)))
  | [], _, tr, acc => by simp [scoreLoop]
  | fc :: rest, h, tr, acc => by
    have hfc : o.scoreCode fc = 0 := h fc (List.mem_cons_self fc rest)
    have hrest : ∀ x ∈ rest, o.scoreCode x = 0 := fun x hx =>
      h x (List.mem_cons_of_mem fc hx)
    have harith : tr.score_calls + 1 + rest.length =
        tr.score_calls + (rest.length + 1) := by omega
    simp only [scoreLoop, NativeEBMInteraction.get_interaction_score, hfc]
    rw [if_neg (by simp)]
    dsimp only
    rw [scoreLoop_ok o rest hrest]
    simp [harith]

/-- Claim C7: when every scoring call succeeds, get_interactions returns
exactly min(n, number of candidates) pairs, with non-increasing scores,
each returned combination still paired with the score computed for it, and
equal-score entries of the stable descending sort retained in input order;
and the concrete five-candidate scenario with scores 0.9, 0.9, 0.5, 0.2,
0.1 and n = 3 returns the first two candidates unchanged followed by the
0.5-scoring one. -/
theorem claim_C7 :
    (∀ (o : InteractionOracle) (mt : String) (n : Nat) (cands : List (List Nat))
        (features : List EbmFeature),
      (mt = "classification" ∨ mt = "regression") → o.initInteractionPtr ≠ 0 →
      (∀ f ∈ features, f.type = "categorical" ∨ f.type = "continuous") →
      (∀ fc ∈ cands, o.scoreCode fc = 0) →
      ∃ inds scores,
        (NativeHelper.get_interactions o n cands mt features).2 = .ok (inds, scores) ∧
        inds.length = Nat.min n cands.length ∧
        scores.length = Nat.min n cands.length ∧
        scores = inds.map o.scoreVal ∧
        List.Pairwise (fun a b : ℚ => b ≤ a) scores ∧
        (∀ sc : ℚ,
          (sortedByScoreDesc (cands.map fun fc => (fc, o.scoreVal fc))).filter
              (fun p => p.2 = sc) =
            (cands.map fun fc => (fc, o.scoreVal fc)).filter (fun p => p.2 = sc))) ∧
    (NativeHelper.get_interactions exampleInteractionOracle 3 [[0], [1], [2], [3], [4]]
      "regression" exampleFeatures).2 = .ok ([[0], [1], [2]], [9/10, 9/10, 1/2]) := by
  constructor
  · intro o mt n cands features hmt hptr hfeat hcode
    have hcv : convert_features_to_c features = .ok () := by
      rw [convert_features_to_c_eq, if_pos hfeat]
    have hinit : NativeEBMInteraction.mk_init o mt features =
        .ok ⟨o.initInteractionPtr⟩ := by
      rcases hmt with rfl | rfl <;> simp [NativeEBMInteraction.mk_init, hcv, hptr]
    have hloop := scoreLoop_ok o cands hcode InteractionTrace.initial []
    have hsorted := sortAux_sorted (cands.map fun fc => (fc, o.scoreVal fc)) []
      (by simp)
    have hperm : List.Perm (sortedByScoreDesc (cands.map fun fc => (fc, o.scoreVal fc)))
        (cands.map fun fc => (fc, o.scoreVal fc)) := by
      simpa using sortAux_perm (cands.map fun fc => (fc, o.scoreVal fc)) []
    have hlen : (sortedByScoreDesc (cands.map fun fc => (fc, o.scoreVal fc))).length =
        cands.length := by
      rw [hperm.length_eq, List.length_map]
    have hmem : ∀ p ∈ (sortedByScoreDesc (cands.map fun fc =>
        (fc, o.scoreVal fc))).take (Nat.min (sortedByScoreDesc (cands.map fun fc =>
          (fc, o.scoreVal fc))).length n), p.2 = o.scoreVal p.1 := by
      intro p hp
      have hp1 := List.take_subset _ _ hp
      have hp2 := hperm.mem_iff.mp hp1
      rcases List.mem_map.mp hp2 with ⟨fc, _, rfl⟩
      rfl
    have hgi : (NativeHelper.get_interactions o n cands mt features).2 =
        .ok (((sortedByScoreDesc (cands.map fun fc => (fc, o.scoreVal fc))).take
            (Nat.min (sortedByScoreDesc (cands.map fun fc =>
              (fc, o.scoreVal fc))).length n)).map (·.1),
          ((sortedByScoreDesc (cands.map fun fc => (fc, o.scoreVal fc))).take
            (Nat.min (sortedByScoreDesc (cands.map fun fc =>
              (fc, o.scoreVal fc))).length n)).map (·.2)) := by
      simp only [NativeHelper.get_interactions, hinit, hloop, List.nil_append]
    refine ⟨_, _, hgi, ?_, ?_, ?_, ?_, ?_⟩
    · rw [List.length_map, List.length_take, hlen]
      simp only [Nat.min_def]
      split_ifs <;> omega
    · rw [List.length_map, List.length_take, hlen]
      simp only [Nat.min_def]
      split_ifs <;> omega
    · rw [List.map_map]
      exact List.map_congr_left hmem
    · exact (List.pairwise_map).mpr (hsorted.sublist (List.take_sublist _ _))
    · intro sc
      simpa using sortAux_filter sc (cands.map fun fc => (fc, o.scoreVal fc)) []
        (by simp)
  · norm_num [NativeHelper.get_interactions, NativeEBMInteraction.mk_init,
      convert_features_to_c, exampleFeatures,
      scoreLoop, NativeEBMInteraction.get_interaction_score, exampleInteractionOracle,
      sortedByScoreDesc, insertDesc, NativeEBMInteraction.close,
      InteractionTrace.initial, Nat.min_def]

/-- Witness for claim C7 at a concrete input. -/
theorem claim_C7_witness :
    ∃ inds scores,
      (NativeHelper.get_interactions exampleInteractionOracle 2 [[0], [3]]
        "classification" exampleFeatures).2 = .ok (inds, scores) ∧
      inds.length = Nat.min 2 ([[0], [3]] : List (List Nat)).length ∧
      scores.length = Nat.min 2 ([[0], [3]] : List (List Nat)).length ∧
      scores = inds.map exampleInteractionOracle.scoreVal ∧
      List.Pairwise (fun a b : ℚ => b ≤ a) scores ∧
      (∀ sc : ℚ,
        (sortedByScoreDesc (([[0], [3]] : List (List Nat)).map fun fc =>
            (fc, exampleInteractionOracle.scoreVal fc))).filter (fun p => p.2 = sc) =
          (([[0], [3]] : List (List Nat)).map fun fc =>
            (fc, exampleInteractionOracle.scoreVal fc)).filter (fun p => p.2 = sc)) :=
  claim_C7.1 exampleInteractionOracle "classification" 2 [[0], [3]] exampleFeatures
    (Or.inl rfl) (by norm_num [exampleInteractionOracle])
    (by simp [exampleFeatures]) (fun _ _ => rfl)
